import Mathlib

/-!
Verification of the datatools-ui specification against the repository.

The repository ships the Jest/Puppeteer end-to-end suite
`src/__tests__/end-to-end.js`; the helpers of that suite (test gating,
input clearing/typing) are embedded below directly from the source.
The snapshot/versioning engine itself is exercised by the suite but its
implementation is not part of this repository, so those parts are
modelled from the specification text; each such definition is marked
`Modelled from the spec:`.
-/

namespace Datatools

/-! ## Test harness: `makeMakeTest` (src/__tests__/end-to-end.js lines 33-72) -/

/-- Argument that is either a bare test name or an array of test names,
mirroring the `Array<string> | string` type of the `defaultDependentTests`
and `dependentTests` parameters of `makeMakeTest`. -/
inductive StrOrArray where
  | str (s : String)
  | arr (l : List String)
deriving DecidableEq

/-- Coercion performed by `if (!(x instanceof Array)) x = [x]`. -/
def StrOrArray.toArray : StrOrArray → List String
  | .str s => [s]
  | .arr l => l

/-- Mutable `testResults` object of the suite: test names mapped to their
recorded results (assignments shadow older entries). -/
abbrev TestResults := List (String × Bool)

/-- Truthiness of `testResults[test]`: a missing key is falsy. -/
def lookupResult (rs : TestResults) (k : String) : Bool :=
  match rs.find? (fun p => p.1 == k) with
  | some p => p.2
  | none => false

/-- Outcome of one run of a test built by `makeMakeTest`. -/
inductive TestOutcome where
  | depMissing (dep : String)
  | fnFailed
  | passed
deriving DecidableEq

/-- Observable result of one such run: whether the body `fn` was invoked,
how the run ended, and the `testResults` map afterwards. -/
structure TestRun where
  fnInvoked : Bool
  outcome : TestOutcome
  results : TestResults
deriving DecidableEq

/-- Dependency list checked by the test body: the defaults captured by
`makeMakeTest` concatenated with the per-test dependencies, each coerced
from a bare string to a one-element array. -/
def allDependentTests (defaults deps : StrOrArray) : List String :=
  defaults.toArray ++ deps.toArray

/-- One run of the test produced by
`makeMakeTest(defaultDependentTests)(name, fn, timeout, dependentTests)`:
the body walks the concatenated dependency list and throws an error naming
the first dependent test without a truthy entry in `testResults`; otherwise
it runs `fn` (whether `fn` resolves is abstracted by `fnSucceeds`; a
rejection is rethrown), and on success records `testResults[name] = true`. -/
def makeMakeTestRun (defaults : StrOrArray) (name : String)
    (fnSucceeds : Bool) (deps : StrOrArray) (testResults : TestResults) : TestRun :=
  match (allDependentTests defaults deps).find? (fun t => !(lookupResult testResults t)) with
  | some d => ⟨false, .depMissing d, testResults⟩
  | none =>
    if fnSucceeds then ⟨true, .passed, (name, true) :: testResults⟩
    else ⟨true, .fnFailed, testResults⟩

/-! ## Input helpers: `clearInput`, `clearAndType`, `clearAndTypeNumber`,
`appendText` (src/__tests__/end-to-end.js lines 307-362) -/

/-- State of a focused text input: its value and the caret position,
both in characters. -/
structure InputState where
  value : List Char
  caret : Nat
deriving DecidableEq

/-- Keyboard/DOM actions the helpers perform on a focused text input. -/
inductive KeyAction where
  | clearValue
  | typeText (s : String)
  | pressEnd
  | pressArrowLeft
deriving DecidableEq

/-- Semantics of one action: assigning `input.value = ''` through the DOM
empties the value and resets the caret; typing inserts at the caret and
advances it; End moves the caret to the end; ArrowLeft moves it one
character left. -/
def applyAction (st : InputState) : KeyAction → InputState
  | .clearValue => ⟨[], 0⟩
  | .typeText s =>
      ⟨st.value.take st.caret ++ s.toList ++ st.value.drop st.caret, st.caret + s.length⟩
  | .pressEnd => ⟨st.value, st.value.length⟩
  | .pressArrowLeft => ⟨st.value, st.caret - 1⟩

/-- Running a sequence of actions against an input. -/
def runActions (st : InputState) (acts : List KeyAction) : InputState :=
  acts.foldl applyAction st

/-- Actions of `clearAndType(selector, text)`: set the input value to the
empty string via `clearInput`, then type `text`. -/
def clearAndType (text : String) : List KeyAction :=
  [.clearValue, .typeText text]

/-- Actions of `appendText(selector, text)`: focus the input, press End,
then type `text` at the end of the existing value. -/
def appendText (text : String) : List KeyAction :=
  [.pressEnd, .typeText text]

/-- Digits of a JavaScript decimal literal: integer digits, optionally
followed by a dot and fraction digits. -/
def decimalDigits (cs : List Char) : List Char :=
  let intPart := cs.takeWhile Char.isDigit
  match cs.drop intPart.length with
  | '.' :: rest => intPart ++ rest.takeWhile Char.isDigit
  | _ => intPart

/-- Guard `parseFloat(text) < 0` of `clearAndTypeNumber`, modelled for finite
decimal literals: after optional whitespace and a leading minus sign the
parsed mantissa must be nonempty (an empty mantissa makes `parseFloat`
yield NaN, and NaN is not less than zero) and contain a nonzero digit
(negative zero is not less than zero). Exponent underflow to negative
zero is outside the model. -/
def parseFloatNeg (s : String) : Bool :=
  match s.toList.dropWhile (fun c => c == ' ' || c == '\t' || c == '\n' || c == '\r') with
  | '-' :: rest =>
      let m := decimalDigits rest
      !m.isEmpty && m.any (fun c => c != '0')
  | _ => false

/-- Actions of `clearAndTypeNumber(selector, text)`: clear-and-type `text`;
then, when `parseFloat(text) < 0`, press ArrowLeft once per character of
`text` and type a single extra minus sign at the caret. -/
def clearAndTypeNumber (text : String) : List KeyAction :=
  clearAndType text ++
    (if parseFloatNeg text then
      List.replicate text.length .pressArrowLeft ++ [.typeText "-"]
    else [])

/-! ## Feed versions and the artifact boundary (spec sections 3, 4.4, 6)

The snapshot/versioning engine exercised by the e2e suite is not part of
this repository; the definitions below are modelled from the spec. -/

/-- Service date range, dates encoded as `yyyymmdd` naturals. -/
structure DateRange where
  startDate : Nat
  endDate : Nat
deriving DecidableEq

/-- Modelled from the spec: the validity window of a published version is
"derived from the union of Calendar/CalendarException date ranges": the
union bound of a nonempty list of ranges takes the least start date and
the greatest end date; an empty list yields no window. -/
def unionBound : List DateRange → Option DateRange
  | [] => none
  | r :: rest =>
      some (List.foldl
        (fun acc x => ⟨min acc.startDate x.startDate, max acc.endDate x.endDate⟩) r rest)

/-- Modelled from the spec: a GTFS zip artifact is opaque at the boundary;
the only structure the engine extracts from it is the set of
Calendar/CalendarException date ranges (which determine the validity
window). The byte list stands for the opaque zip content. The
importer/exporter that handles the artifact is not part of this
repository — only its e2e tests are. -/
structure GtfsBundle where
  serviceRanges : List DateRange
  bytes : List Nat
deriving DecidableEq

/-- Modelled from the spec: the MD5 content hash taken at the feed-version
artifact boundary. The spec treats bundles as content-addressed —
"hash-stable for a given entity set", with content equality of two
versions verifiable by comparing bundle hashes — so the hash is modelled
as an injective encoding of the byte content. -/
def md5Hash (bytes : List Nat) : Nat :=
  List.foldr (fun b acc => Nat.pair b acc + 1) 0 bytes

/-- Modelled from the spec: an immutable feed version: validity window
`[startDate, endDate]` plus the opaque downloadable bundle content. -/
structure FeedVersion where
  window : DateRange
  content : List Nat
deriving DecidableEq

/-- Modelled from the spec: a feed source owns an ordered list of feed
versions, most-recent-first, and zero-or-one active snapshot. -/
structure FeedSource where
  versions : List FeedVersion
  activeSnapshotId : Option Nat
deriving DecidableEq

/-- Modelled from the spec: processing an uploaded or fetched GTFS zip
creates a new feed version holding the artifact's bytes, with validity
window the union bound of the artifact's service date ranges, prepended
as the most recent version. An artifact with no service range creates
nothing. -/
def processGtfs (fs : FeedSource) (file : GtfsBundle) : FeedSource :=
  match unionBound file.serviceRanges with
  | none => fs
  | some w => { fs with versions := ⟨w, file.bytes⟩ :: fs.versions }

/-- Modelled from the spec: downloading a feed version yields its opaque
bundle content. -/
def downloadVersion (v : FeedVersion) : List Nat :=
  v.content

/-- Most recent (currently displayed) version of a feed source. -/
def currentVersion (fs : FeedSource) : Option FeedVersion :=
  fs.versions.head?

/-- Modelled from the spec: deleting the most recent feed version; version
deletion is independent of snapshots. -/
def deleteCurrentVersion (fs : FeedSource) : FeedSource :=
  { fs with versions := fs.versions.tail }

/-! ## Snapshots and publishing (spec section 4.4) -/

/-- Modelled from the spec: a snapshot with the part of its entity set that
determines publishing: the Calendar and CalendarException date ranges,
plus its active flag. -/
structure Snapshot where
  feedSourceId : Nat
  calendarRanges : List DateRange
  exceptionRanges : List DateRange
  active : Bool
deriving DecidableEq

/-- Modelled from the spec: the exporter materializes the snapshot's entity
set into an opaque bundle; it is a function of the entity set alone
(hash-stable for a given entity set). -/
def exportBytes (snap : Snapshot) : List Nat :=
  (snap.calendarRanges ++ snap.exceptionRanges).map (fun r => Nat.pair r.startDate r.endDate)

/-- Modelled from the spec: `publish(snapshotId)` runs the export/validate
job; on success it materializes an immutable FeedVersion whose validity
window is the union bound of the snapshot's Calendar/CalendarException
date ranges and deactivates the snapshot; on failure nothing is
produced and the snapshot is left as it was. -/
def publishSnapshot (snap : Snapshot) (jobOk : Bool) : Option (FeedVersion × Snapshot) :=
  if jobOk then
    match unionBound (snap.calendarRanges ++ snap.exceptionRanges) with
    | none => none
    | some w => some (⟨w, exportBytes snap⟩, { snap with active := false })
  else none

/-! ## Job coordinator (spec section 4.5) -/

/-- Status of an asynchronous job as exposed by the job coordinator. -/
inductive JobStatus where
  | running
  | succeeded
  | failed
deriving DecidableEq

/-- Observable state around one asynchronous version-creating operation
(upload, fetch, or publish): the job's status and whether the dependent
feed version is visible. -/
structure AsyncVersionState where
  job : JobStatus
  versionVisible : Bool
deriving DecidableEq

/-- Modelled from the spec: transitions of the job coordinator: a submitted
job starts Running with no visible version; it terminates either
Succeeded — materializing the version in the same transition — or
Failed, producing nothing. Terminal states have no outgoing
transitions. -/
inductive AsyncStep : AsyncVersionState → AsyncVersionState → Prop where
  | completeOk : AsyncStep ⟨.running, false⟩ ⟨.succeeded, true⟩
  | completeFail : AsyncStep ⟨.running, false⟩ ⟨.failed, false⟩

/-- States reachable from submission of a version-creating job. -/
inductive AsyncReachable : AsyncVersionState → Prop where
  | init : AsyncReachable ⟨.running, false⟩
  | step {s s2 : AsyncVersionState} :
      AsyncReachable s → AsyncStep s s2 → AsyncReachable s2

/-- Terminal job statuses. -/
def isTerminal : JobStatus → Bool
  | .running => false
  | .succeeded => true
  | .failed => true

/-- Modelled from the spec: callers poll to a terminal state before treating
dependent state as settled: polling walks the observed status sequence
and settles on the first terminal status, if any. -/
def pollToTerminal (observed : List JobStatus) : Option JobStatus :=
  observed.find? isTerminal

/-! ## Entity store: clone / save / delete (spec sections 4.1, 3) -/

/-- Modelled from the spec: a polymorphic entity of the store, reduced to
what clone/save/delete observe: its natural key (unique within a
snapshot) and its remaining fields. -/
structure EditorEntity where
  key : String
  fields : List (String × String)
deriving DecidableEq

/-- Per-kind entity table of a snapshot. -/
abbrev EntityTable := List EditorEntity

/-- Lookup by natural key. -/
def lookupEntity (t : EntityTable) (k : String) : Option EditorEntity :=
  t.find? (fun e => e.key == k)

/-- Modelled from the spec: `clone(id)` returns a duplicate of the entity
with a fresh natural key distinct from the source's; the e2e clone flows
append "-copied" to the source key. -/
def cloneEntity (e : EditorEntity) : EditorEntity :=
  { e with key := e.key ++ "-copied" }

/-- Modelled from the spec: saving a newly created entity adds it to the
snapshot's table. -/
def saveEntity (t : EntityTable) (e : EditorEntity) : EntityTable :=
  e :: t

/-- Modelled from the spec: deleting an entity removes the entries with its
natural key from the table. -/
def deleteEntity (t : EntityTable) (k : String) : EntityTable :=
  t.filter (fun e => !(e.key == k))

/-! ## Patterns and trips (spec section 4.2) -/

/-- Trip entity reduced to its ownership link: each trip belongs to exactly
one pattern. -/
structure TripEnt where
  tripId : String
  patternId : String
deriving DecidableEq

/-- Pattern entity: identity, display name and the ordered stop sequence. -/
structure PatternEnt where
  patternId : String
  name : String
  patternStops : List String
deriving DecidableEq

/-- Pattern and trip tables of a snapshot. -/
structure EditorTables where
  patterns : List PatternEnt
  trips : List TripEnt
deriving DecidableEq

/-- Lookup of a pattern by id. -/
def lookupPattern (st : EditorTables) (pid : String) : Option PatternEnt :=
  st.patterns.find? (fun p => p.patternId == pid)

/-- Trips owned by a pattern. -/
def tripsOfPattern (st : EditorTables) (pid : String) : List TripEnt :=
  st.trips.filter (fun t => t.patternId == pid)

/-- Modelled from the spec: `duplicate(patternId)` copies the full stop
sequence into a new Pattern entity (named "<name> copy" in the e2e flow)
and copies no trips; the source pattern and its trips are untouched. -/
def duplicatePattern (st : EditorTables) (pid newId : String) : EditorTables :=
  match st.patterns.find? (fun p => p.patternId == pid) with
  | none => st
  | some p =>
      { st with patterns := st.patterns ++ [⟨newId, p.name ++ " copy", p.patternStops⟩] }

/-- Modelled from the spec: deleting a pattern removes it and, cascading,
the trips it owns. -/
def deletePattern (st : EditorTables) (pid : String) : EditorTables :=
  ⟨st.patterns.filter (fun p => !(p.patternId == pid)),
   st.trips.filter (fun t => !(t.patternId == pid))⟩

/-! ## Deployment and the trip-planning query boundary (spec section 6) -/

/-- Stop of a deployed entity set: natural key and display name. -/
structure DeployedStop where
  stopId : String
  stopName : String
deriving DecidableEq

/-- Trip of a deployed entity set: identity and the stop sequence it passes
through. -/
structure DeployedTrip where
  tripId : String
  stopIds : List String
deriving DecidableEq

/-- Modelled from the spec: the entity set a published feed version hands
to the external trip planner; only stops and trip stop-sequences matter
for resolving a trip through a named stop. -/
structure DeployedFeed where
  stops : List DeployedStop
  trips : List DeployedTrip
deriving DecidableEq

/-- Structural validity at the deployment boundary: every stop referenced
by a trip resolves to a stop of the feed. -/
def structurallyValid (feed : DeployedFeed) : Bool :=
  feed.trips.all (fun t => t.stopIds.all (fun sid => feed.stops.any (fun s => s.stopId == sid)))

/-- Modelled from the spec: the routing query resolves a known stop by its
name and then finds a trip passing through it. -/
def resolveTripThroughStop (feed : DeployedFeed) (name : String) : Option DeployedTrip :=
  match feed.stops.find? (fun s => s.stopName == name) with
  | none => none
  | some s => feed.trips.find? (fun t => t.stopIds.contains s.stopId)

/-- Response of the trip-plan query at the external boundary: an HTTP-like
status plus the response text, reduced to the stop names along the
resolved itinerary. -/
structure PlanResponse where
  status : Nat
  body : List String
deriving DecidableEq

/-- Modelled from the spec: the trip-plan query against the deployed router
succeeds (status 200) with the itinerary's stop names when a trip
resolves through the named stop, and fails otherwise. -/
def tripPlanQuery (feed : DeployedFeed) (name : String) : PlanResponse :=
  match resolveTripThroughStop feed name with
  | some t =>
      ⟨200, t.stopIds.filterMap
        (fun sid => (feed.stops.find? (fun s => s.stopId == sid)).map (fun s => s.stopName))⟩
  | none => ⟨404, []⟩

/-! ## Concrete data from the e2e scenarios, used by the witnesses -/

/-- Feed version produced by fetching `test-gtfs-to-fetch.zip`
(valid Apr. 08, 2018 to Jun. 30, 2018). -/
def fetchedVersion : FeedVersion :=
  ⟨⟨20180408, 20180630⟩, [1, 2, 3]⟩

/-- Feed source holding the fetched version. -/
def sampleSource : FeedSource :=
  ⟨[fetchedVersion], none⟩

/-- Artifact standing for `test-gtfs-to-upload.zip`
(valid Jan. 01, 2014 to Dec. 31, 2018). -/
def uploadBundle : GtfsBundle :=
  ⟨[⟨20140101, 20181231⟩], [4, 5, 6]⟩

/-- Snapshot of the "from scratch" feed: its only calendar spans
May 29, 2018 through May 29, 2028. -/
def sampleSnapshot : Snapshot :=
  ⟨1, [⟨20180529, 20280529⟩], [], true⟩

/-- Version materialized by publishing `sampleSnapshot`. -/
def sampleVersion : FeedVersion :=
  ⟨⟨20180529, 20280529⟩, exportBytes sampleSnapshot⟩

/-- The snapshot after a successful publish deactivates it. -/
def samplePublished : Snapshot :=
  { sampleSnapshot with active := false }

/-- The agency cloned and deleted by the "should delete agency data" flow. -/
def sampleAgency : EditorEntity :=
  ⟨"test-agency", [("agency_name", "test agency name updated")]⟩

/-- Pattern "New Pattern updated" over the two created stops. -/
def samplePattern : PatternEnt :=
  ⟨"pattern-1", "New Pattern updated", ["test-stop-1", "test-stop-2"]⟩

/-- The trip created on `samplePattern`. -/
def sampleTrip : TripEnt :=
  ⟨"trip-1", "pattern-1"⟩

/-- Editor tables holding the pattern and its trip. -/
def sampleTables : EditorTables :=
  ⟨[samplePattern], [sampleTrip]⟩

/-- Entity set of the deployed scratch feed: the two created stops and the
trip passing through both. -/
def deployedFeed : DeployedFeed :=
  ⟨[⟨"test-stop-1", "Laurel Dr and Valley Dr"⟩,
    ⟨"test-stop-2", "Russell Ave and Valley Dr"⟩],
   [⟨"trip-1", ["test-stop-1", "test-stop-2"]⟩]⟩

/-! ## Helper lemmas -/

/-- The modelled content hash is injective on bundle contents. -/
theorem md5Hash_inj : ∀ {b1 b2 : List Nat}, md5Hash b1 = md5Hash b2 → b1 = b2 := by
  intro b1
  induction b1 with
  | nil =>
      intro b2 h
      cases b2 with
      | nil => rfl
      | cons y l2 => simp [md5Hash] at h
  | cons x l1 ih =>
      intro b2 h
      cases b2 with
      | nil => simp [md5Hash] at h
      | cons y l2 =>
          simp only [md5Hash, List.foldr_cons, Nat.add_right_cancel_iff] at h
          rw [Nat.pair_eq_pair] at h
          obtain ⟨hxy, hrest⟩ := h
          rw [hxy, ih hrest]

/-- Finding under a filter that the sought predicate implies. -/
theorem find?_filter_of_imp {α : Type} (l : List α) (p q : α → Bool)
    (h : ∀ x, p x = true → q x = true) :
    (l.filter q).find? p = l.find? p := by
  induction l with
  | nil => rfl
  | cons a l ih =>
      by_cases hq : q a = true
      · rw [List.filter_cons_of_pos hq]
        by_cases hp : p a = true
        · rw [List.find?_cons_of_pos _ hp, List.find?_cons_of_pos _ hp]
        · rw [List.find?_cons_of_neg _ hp, List.find?_cons_of_neg _ hp, ih]
      · have hp : ¬ p a = true := fun hpa => hq (h a hpa)
        rw [List.filter_cons_of_neg hq, List.find?_cons_of_neg _ hp, ih]

/-- Running an appended action list runs the pieces in sequence. -/
theorem runActions_append (st : InputState) (l1 l2 : List KeyAction) :
    runActions st (l1 ++ l2) = runActions (runActions st l1) l2 := by
  simp [runActions]

/-- A filterMap whose function succeeds on every element keeps the length. -/
theorem filterMap_length_of_all_isSome {α β : Type} (l : List α) (f : α → Option β)
    (h : ∀ a ∈ l, (f a).isSome = true) : (l.filterMap f).length = l.length := by
  induction l with
  | nil => rfl
  | cons a l ih =>
      have ha := h a (by simp)
      rcases hfa : f a with _ | b
      · rw [hfa] at ha
        cases ha
      · rw [List.filterMap_cons_some hfa]
        simp [ih (fun x hx => h x (by simp [hx]))]

/-- Each ArrowLeft press moves the caret one character left. -/
theorem runActions_replicate_arrowLeft (v : List Char) (c n : Nat) :
    runActions ⟨v, c⟩ (List.replicate n KeyAction.pressArrowLeft) = ⟨v, c - n⟩ := by
  induction n generalizing c with
  | zero => simp [runActions]
  | succ n ih =>
      rw [List.replicate_succ]
      have h1 : runActions ⟨v, c⟩
            (KeyAction.pressArrowLeft :: List.replicate n KeyAction.pressArrowLeft)
          = runActions ⟨v, c - 1⟩ (List.replicate n KeyAction.pressArrowLeft) := rfl
      rw [h1, ih]
      simp only [InputState.mk.injEq, true_and]
      omega

/-! ## Claims -/

/-- C1: Round-trip content preservation at the feed-version artifact
boundary: for a GTFS zip uploaded to a feed source, downloading the
resulting (current) feed version yields a bundle whose content hash (MD5)
equals the hash of the uploaded file, and content equality of two
versions is decided by comparing bundle hashes. -/
theorem C1_upload_download_roundtrip (fs : FeedSource) (file : GtfsBundle) (w : DateRange)
    (h : unionBound file.serviceRanges = some w) :
    (∃ v, currentVersion (processGtfs fs file) = some v
        ∧ md5Hash (downloadVersion v) = md5Hash file.bytes)
    ∧ ∀ v1 v2 : FeedVersion,
        (md5Hash v1.content = md5Hash v2.content ↔ v1.content = v2.content) := by
  constructor
  · refine ⟨⟨w, file.bytes⟩, ?_, rfl⟩
    simp [processGtfs, h, currentVersion]
  · intro v1 v2
    exact ⟨fun hh => md5Hash_inj hh, fun hh => by rw [hh]⟩

/-- Witness for C1: the upload scenario of the e2e suite, with the bundle
valid Jan. 01, 2014 to Dec. 31, 2018. -/
theorem C1_upload_download_roundtrip_witness :
    unionBound uploadBundle.serviceRanges = some ⟨20140101, 20181231⟩
    ∧ ((∃ v, currentVersion (processGtfs sampleSource uploadBundle) = some v
          ∧ md5Hash (downloadVersion v) = md5Hash uploadBundle.bytes)
      ∧ ∀ v1 v2 : FeedVersion,
          (md5Hash v1.content = md5Hash v2.content ↔ v1.content = v2.content)) :=
  ⟨rfl, C1_upload_download_roundtrip sampleSource uploadBundle ⟨20140101, 20181231⟩ rfl⟩

/-- C2: Every successful publish of a snapshot materializes a FeedVersion
whose validity window is the union bound of the Calendar/CalendarException
date ranges of the snapshot, and deactivates the snapshot; in particular a
snapshot whose only calendar spans a single range publishes to a version
valid exactly over that range. -/
theorem C2_publish_validity_window (snap : Snapshot) (jobOk : Bool)
    (v : FeedVersion) (snap2 : Snapshot)
    (h : publishSnapshot snap jobOk = some (v, snap2)) :
    some v.window = unionBound (snap.calendarRanges ++ snap.exceptionRanges)
    ∧ snap2.active = false
    ∧ ∀ r : DateRange, snap.calendarRanges = [r] → snap.exceptionRanges = [] →
        v.window = r := by
  cases jobOk with
  | false => simp [publishSnapshot] at h
  | true =>
      rcases hu : unionBound (snap.calendarRanges ++ snap.exceptionRanges) with _ | w
      · simp [publishSnapshot, hu] at h
      · simp only [publishSnapshot, hu, if_true] at h
        simp only [Option.some.injEq, Prod.mk.injEq] at h
        obtain ⟨hv, hsnap⟩ := h
        subst hv
        subst hsnap
        refine ⟨rfl, rfl, ?_⟩
        · intro r hc he
          rw [hc, he] at hu
          simp [unionBound] at hu
          simp [hu]

/-- Witness for C2: the e2e snapshot whose only calendar spans
May 29, 2018 through May 29, 2028 publishes to a version valid from
May 29, 2018 to May 29, 2028. -/
theorem C2_publish_validity_window_witness :
    publishSnapshot sampleSnapshot true = some (sampleVersion, samplePublished)
    ∧ (some sampleVersion.window
          = unionBound (sampleSnapshot.calendarRanges ++ sampleSnapshot.exceptionRanges)
      ∧ samplePublished.active = false
      ∧ ∀ r : DateRange, sampleSnapshot.calendarRanges = [r] →
          sampleSnapshot.exceptionRanges = [] → sampleVersion.window = r) :=
  ⟨rfl, C2_publish_validity_window sampleSnapshot true sampleVersion samplePublished rfl⟩

/-- C3: A feed version created by an asynchronous operation is never
observable before the creating job reaches the terminal Succeeded state,
and polling settles only on a terminal status. -/
theorem C3_version_visible_only_after_success (s : AsyncVersionState)
    (hr : AsyncReachable s) (hv : s.versionVisible = true) :
    s.job = JobStatus.succeeded
    ∧ ∀ observed st, pollToTerminal observed = some st → isTerminal st = true := by
  constructor
  · induction hr with
    | init => simp at hv
    | step h hstep ih =>
        cases hstep with
        | completeOk => rfl
        | completeFail => simp at hv
  · intro observed st h
    exact List.find?_some h

/-- Witness for C3: the successful-upload trace reaches the state with a
visible version, where the job is Succeeded. -/
theorem C3_version_visible_only_after_success_witness :
    AsyncReachable ⟨JobStatus.succeeded, true⟩
    ∧ (⟨JobStatus.succeeded, true⟩ : AsyncVersionState).versionVisible = true
    ∧ ((⟨JobStatus.succeeded, true⟩ : AsyncVersionState).job = JobStatus.succeeded
      ∧ ∀ observed st, pollToTerminal observed = some st → isTerminal st = true) :=
  ⟨AsyncReachable.step AsyncReachable.init AsyncStep.completeOk, rfl,
    C3_version_visible_only_after_success ⟨JobStatus.succeeded, true⟩
      (AsyncReachable.step AsyncReachable.init AsyncStep.completeOk) rfl⟩

/-- C4: Feed versions form a most-recent-first list: a processed upload
becomes the current version, and deleting the most recent version —
leaving the snapshot state untouched — makes the previous version
current again. -/
theorem C4_delete_most_recent_restores_previous (fs : FeedSource) (file : GtfsBundle)
    (w : DateRange) (h : unionBound file.serviceRanges = some w) :
    currentVersion (processGtfs fs file) = some ⟨w, file.bytes⟩
    ∧ deleteCurrentVersion (processGtfs fs file) = fs
    ∧ currentVersion (deleteCurrentVersion (processGtfs fs file)) = currentVersion fs
    ∧ (deleteCurrentVersion (processGtfs fs file)).activeSnapshotId = fs.activeSnapshotId := by
  have h1 : processGtfs fs file = { fs with versions := ⟨w, file.bytes⟩ :: fs.versions } := by
    simp [processGtfs, h]
  refine ⟨?_, ?_, ?_, ?_⟩ <;> simp [h1, currentVersion, deleteCurrentVersion]

/-- Witness for C4: adding a version valid Jan. 01, 2014 to Dec. 31, 2018 on
top of the fetched version valid Apr. 08, 2018 to Jun. 30, 2018 and
deleting the newer one displays the fetched version again. -/
theorem C4_delete_most_recent_restores_previous_witness :
    unionBound uploadBundle.serviceRanges = some ⟨20140101, 20181231⟩
    ∧ (currentVersion (processGtfs sampleSource uploadBundle)
          = some ⟨⟨20140101, 20181231⟩, uploadBundle.bytes⟩
      ∧ deleteCurrentVersion (processGtfs sampleSource uploadBundle) = sampleSource
      ∧ currentVersion (deleteCurrentVersion (processGtfs sampleSource uploadBundle))
          = currentVersion sampleSource
      ∧ (deleteCurrentVersion (processGtfs sampleSource uploadBundle)).activeSnapshotId
          = sampleSource.activeSnapshotId)
    ∧ currentVersion sampleSource = some fetchedVersion :=
  ⟨rfl,
   C4_delete_most_recent_restores_previous sampleSource uploadBundle
     ⟨20140101, 20181231⟩ rfl,
   rfl⟩

/-- C5: Cloning an entity yields a duplicate with a fresh natural key
distinct from the source's; saving the clone and later deleting it leaves
the source entity untouched. -/
theorem C5_clone_fresh_key_and_independent (t : EntityTable) (e : EditorEntity) :
    (cloneEntity e).key ≠ e.key
    ∧ (cloneEntity e).fields = e.fields
    ∧ lookupEntity (saveEntity t (cloneEntity e)) (cloneEntity e).key = some (cloneEntity e)
    ∧ lookupEntity (deleteEntity (saveEntity t (cloneEntity e)) (cloneEntity e).key)
        (cloneEntity e).key = none
    ∧ lookupEntity (deleteEntity (saveEntity t (cloneEntity e)) (cloneEntity e).key) e.key
        = lookupEntity t e.key := by
  have hkey : (cloneEntity e).key ≠ e.key := by
    intro hk
    have hlen := congrArg String.length hk
    simp [cloneEntity, String.length_append] at hlen
    exact absurd hlen (by decide)
  have hdel : deleteEntity (saveEntity t (cloneEntity e)) (cloneEntity e).key
      = deleteEntity t (cloneEntity e).key := by
    simp [deleteEntity, saveEntity]
  refine ⟨hkey, rfl, ?_, ?_, ?_⟩
  · rw [lookupEntity, saveEntity, List.find?_cons_of_pos _ (by simp)]
  · rw [lookupEntity, List.find?_eq_none]
    intro x hx
    have hq := List.of_mem_filter hx
    simpa using hq
  · rw [hdel, lookupEntity, lookupEntity, deleteEntity]
    apply find?_filter_of_imp
    intro x hx
    have hxe : x.key = e.key := by simpa using hx
    rw [hxe]
    simp only [Bool.not_eq_true', beq_eq_false_iff_ne]
    exact fun hh => hkey hh.symm

/-- Witness for C5: the agency-clone flow of the e2e suite. -/
theorem C5_clone_fresh_key_and_independent_witness :
    (cloneEntity sampleAgency).key ≠ sampleAgency.key
    ∧ (cloneEntity sampleAgency).fields = sampleAgency.fields
    ∧ lookupEntity (saveEntity [sampleAgency] (cloneEntity sampleAgency))
        (cloneEntity sampleAgency).key = some (cloneEntity sampleAgency)
    ∧ lookupEntity
        (deleteEntity (saveEntity [sampleAgency] (cloneEntity sampleAgency))
          (cloneEntity sampleAgency).key)
        (cloneEntity sampleAgency).key = none
    ∧ lookupEntity
        (deleteEntity (saveEntity [sampleAgency] (cloneEntity sampleAgency))
          (cloneEntity sampleAgency).key)
        sampleAgency.key = lookupEntity [sampleAgency] sampleAgency.key :=
  C5_clone_fresh_key_and_independent [sampleAgency] sampleAgency

/-- C6: Duplicating a pattern copies its full stop sequence into a new
pattern that owns no trips, leaves the source pattern and all of its
trips unchanged, and deleting the duplicate afterwards removes only the
duplicate. -/
theorem C6_duplicate_pattern_frame (st : EditorTables) (pid newId : String) (p : PatternEnt)
    (hp : lookupPattern st pid = some p)
    (hfreshPat : lookupPattern st newId = none)
    (hfreshTrip : ∀ t ∈ st.trips, t.patternId ≠ newId) :
    lookupPattern (duplicatePattern st pid newId) newId
        = some ⟨newId, p.name ++ " copy", p.patternStops⟩
    ∧ tripsOfPattern (duplicatePattern st pid newId) newId = []
    ∧ lookupPattern (duplicatePattern st pid newId) pid = some p
    ∧ (duplicatePattern st pid newId).trips = st.trips
    ∧ tripsOfPattern (duplicatePattern st pid newId) pid = tripsOfPattern st pid
    ∧ deletePattern (duplicatePattern st pid newId) newId = st := by
  rw [lookupPattern] at hp hfreshPat
  have hdup : duplicatePattern st pid newId
      = { st with patterns :=
            st.patterns ++ [⟨newId, p.name ++ " copy", p.patternStops⟩] } := by
    rw [duplicatePattern, hp]
  have hnoTrips : st.trips.filter (fun t => t.patternId == newId) = [] := by
    rw [List.filter_eq_nil_iff]
    intro t ht
    simpa using hfreshTrip t ht
  have hkeepTrips : st.trips.filter (fun t => !(t.patternId == newId)) = st.trips := by
    rw [List.filter_eq_self]
    intro t ht
    simpa using hfreshTrip t ht
  have hkeepPats : st.patterns.filter (fun q => !(q.patternId == newId)) = st.patterns := by
    rw [List.filter_eq_self]
    intro q hq
    rw [List.find?_eq_none] at hfreshPat
    simpa using hfreshPat q hq
  refine ⟨?_, ?_, ?_, ?_, ?_, ?_⟩
  · rw [hdup, lookupPattern]
    simp [List.find?_append, hfreshPat]
  · rw [hdup, tripsOfPattern]
    exact hnoTrips
  · rw [hdup, lookupPattern]
    simp [List.find?_append, hp]
  · rw [hdup]
  · rw [hdup, tripsOfPattern, tripsOfPattern]
  · rw [hdup, deletePattern]
    simp only [List.filter_append, hkeepPats, hkeepTrips]
    simp [hkeepTrips]

/-- Witness for C6: duplicating "New Pattern updated" in the e2e store and
deleting the duplicate. -/
theorem C6_duplicate_pattern_frame_witness :
    lookupPattern sampleTables "pattern-1" = some samplePattern
    ∧ lookupPattern sampleTables "pattern-2" = none
    ∧ (∀ t ∈ sampleTables.trips, t.patternId ≠ "pattern-2")
    ∧ (lookupPattern (duplicatePattern sampleTables "pattern-1" "pattern-2") "pattern-2"
          = some ⟨"pattern-2", samplePattern.name ++ " copy", samplePattern.patternStops⟩
      ∧ tripsOfPattern (duplicatePattern sampleTables "pattern-1" "pattern-2") "pattern-2" = []
      ∧ lookupPattern (duplicatePattern sampleTables "pattern-1" "pattern-2") "pattern-1"
          = some samplePattern
      ∧ (duplicatePattern sampleTables "pattern-1" "pattern-2").trips = sampleTables.trips
      ∧ tripsOfPattern (duplicatePattern sampleTables "pattern-1" "pattern-2") "pattern-1"
          = tripsOfPattern sampleTables "pattern-1"
      ∧ deletePattern (duplicatePattern sampleTables "pattern-1" "pattern-2") "pattern-2"
          = sampleTables) :=
  ⟨rfl, rfl, by decide,
    C6_duplicate_pattern_frame sampleTables "pattern-1" "pattern-2" samplePattern
      rfl rfl (by decide)⟩

/-- C7: The deployed entity set is queryable: when the routing query
resolves a trip through the stop with the given name on a structurally
valid entity set with unique stop keys, the trip-plan response succeeds
with status 200 and its text contains the stop's name. -/
theorem C7_deployed_feed_queryable (feed : DeployedFeed) (name : String) (t : DeployedTrip)
    (hvalid : structurallyValid feed = true)
    (huniq : ∀ s1 ∈ feed.stops, ∀ s2 ∈ feed.stops, s1.stopId = s2.stopId → s1 = s2)
    (hres : resolveTripThroughStop feed name = some t) :
    (tripPlanQuery feed name).status = 200
    ∧ name ∈ (tripPlanQuery feed name).body
    ∧ (tripPlanQuery feed name).body.length = t.stopIds.length := by
  have hq : tripPlanQuery feed name
      = ⟨200, t.stopIds.filterMap
          (fun sid => (feed.stops.find? (fun s => s.stopId == sid)).map
            (fun s => s.stopName))⟩ := by
    rw [tripPlanQuery, hres]
  rcases hstop : feed.stops.find? (fun s => s.stopName == name) with _ | s
  · rw [resolveTripThroughStop, hstop] at hres
    cases hres
  · have hres2 : feed.trips.find? (fun tr => tr.stopIds.contains s.stopId) = some t := by
      rw [resolveTripThroughStop, hstop] at hres
      exact hres
    have hsName : s.stopName = name := by
      have := List.find?_some hstop
      simpa using this
    have hsMem : s ∈ feed.stops := List.mem_of_find?_eq_some hstop
    have htMem : s.stopId ∈ t.stopIds := by
      have := List.find?_some hres2
      simpa using this
    have htripMem : t ∈ feed.trips := List.mem_of_find?_eq_some hres2
    have hall : ∀ sid ∈ t.stopIds,
        ((feed.stops.find? (fun s2 => s2.stopId == sid)).map
          (fun s2 => s2.stopName)).isSome = true := by
      intro sid hsid
      have hfs : (feed.stops.find? (fun s2 => s2.stopId == sid)).isSome = true := by
        rw [List.find?_isSome]
        rw [structurallyValid] at hvalid
        simp only [List.all_eq_true] at hvalid
        have h5 := hvalid t htripMem sid hsid
        simpa [List.any_eq_true] using h5
      rcases Option.isSome_iff_exists.mp hfs with ⟨s4, hs4⟩
      rw [hs4]
      rfl
    refine ⟨by rw [hq], ?_, ?_⟩
    · rw [hq]
      rw [List.mem_filterMap]
      refine ⟨s.stopId, htMem, ?_⟩
      rcases hfind : feed.stops.find? (fun s2 => s2.stopId == s.stopId) with _ | s3
      · rw [List.find?_eq_none] at hfind
        exact absurd (by simp) (hfind s hsMem)
      · have h1 : s3.stopId = s.stopId := by
          have := List.find?_some hfind
          simpa using this
        have h2 : s3 ∈ feed.stops := List.mem_of_find?_eq_some hfind
        have h3 : s3 = s := huniq s3 h2 s hsMem h1
        simp [hfind, h3, hsName]
    · rw [hq]
      exact filterMap_length_of_all_isSome _ _ hall

/-- Witness for C7: the deployed scratch feed resolves a trip through the
stop named "Laurel Dr and Valley Dr" with a successful response. -/
theorem C7_deployed_feed_queryable_witness :
    structurallyValid deployedFeed = true
    ∧ (∀ s1 ∈ deployedFeed.stops, ∀ s2 ∈ deployedFeed.stops, s1.stopId = s2.stopId → s1 = s2)
    ∧ resolveTripThroughStop deployedFeed "Laurel Dr and Valley Dr"
        = some ⟨"trip-1", ["test-stop-1", "test-stop-2"]⟩
    ∧ ((tripPlanQuery deployedFeed "Laurel Dr and Valley Dr").status = 200
      ∧ "Laurel Dr and Valley Dr" ∈ (tripPlanQuery deployedFeed "Laurel Dr and Valley Dr").body
      ∧ (tripPlanQuery deployedFeed "Laurel Dr and Valley Dr").body.length
          = (⟨"trip-1", ["test-stop-1", "test-stop-2"]⟩ : DeployedTrip).stopIds.length) :=
  ⟨by decide, by decide, by decide,
    C7_deployed_feed_queryable deployedFeed "Laurel Dr and Valley Dr"
      ⟨"trip-1", ["test-stop-1", "test-stop-2"]⟩ (by decide) (by decide) (by decide)⟩

/-- C8: Dependency gating of `makeMakeTest`: the body `fn` is invoked iff
every name in the coerced-and-concatenated dependency list has a truthy
entry in `testResults`; a missing dependency makes the test throw an
error naming that dependent test without running `fn`; and
`testResults[name]` is set to true exactly when `fn` completes without
throwing. -/
theorem C8_makeMakeTest_gating (defaults deps : StrOrArray) (name : String)
    (fnOk : Bool) (rs : TestResults) :
    ((makeMakeTestRun defaults name fnOk deps rs).fnInvoked = true
        ↔ ∀ t ∈ allDependentTests defaults deps, lookupResult rs t = true)
    ∧ (∀ d, (makeMakeTestRun defaults name fnOk deps rs).outcome = TestOutcome.depMissing d →
        d ∈ allDependentTests defaults deps ∧ lookupResult rs d = false
          ∧ (makeMakeTestRun defaults name fnOk deps rs).fnInvoked = false
          ∧ (makeMakeTestRun defaults name fnOk deps rs).results = rs)
    ∧ ((makeMakeTestRun defaults name fnOk deps rs).outcome = TestOutcome.passed
        ↔ (makeMakeTestRun defaults name fnOk deps rs).fnInvoked = true ∧ fnOk = true)
    ∧ ((makeMakeTestRun defaults name fnOk deps rs).results
        = if (makeMakeTestRun defaults name fnOk deps rs).outcome = TestOutcome.passed
            then (name, true) :: rs else rs)
    ∧ ((makeMakeTestRun defaults name fnOk deps rs).outcome = TestOutcome.passed →
        lookupResult (makeMakeTestRun defaults name fnOk deps rs).results name = true) := by
  rcases hfind : (allDependentTests defaults deps).find? (fun t => !(lookupResult rs t))
    with _ | d0
  · have hall : ∀ t ∈ allDependentTests defaults deps, lookupResult rs t = true := by
      rw [List.find?_eq_none] at hfind
      intro t ht
      simpa using hfind t ht
    cases fnOk with
    | true =>
        have hrun : makeMakeTestRun defaults name true deps rs
            = ⟨true, .passed, (name, true) :: rs⟩ := by
          rw [makeMakeTestRun, hfind]
          rfl
        refine ⟨?_, ?_, ?_, ?_, ?_⟩
        · rw [hrun]
          exact ⟨fun _ => hall, fun _ => rfl⟩
        · intro d hd
          rw [hrun] at hd
          simp at hd
        · rw [hrun]
          exact ⟨fun _ => ⟨rfl, rfl⟩, fun _ => rfl⟩
        · rw [hrun]
          simp
        · intro hp2
          rw [hrun]
          simp [lookupResult]
    | false =>
        have hrun : makeMakeTestRun defaults name false deps rs
            = ⟨true, .fnFailed, rs⟩ := by
          rw [makeMakeTestRun, hfind]
          rfl
        refine ⟨?_, ?_, ?_, ?_, ?_⟩
        · rw [hrun]
          exact ⟨fun _ => hall, fun _ => rfl⟩
        · intro d hd
          rw [hrun] at hd
          simp at hd
        · rw [hrun]
          simp
        · rw [hrun]
          simp
        · intro hp2
          rw [hrun] at hp2
          simp at hp2
  · have hp := List.find?_some hfind
    have hmem : d0 ∈ allDependentTests defaults deps := List.mem_of_find?_eq_some hfind
    have hlook : lookupResult rs d0 = false := by simpa using hp
    have hrun : makeMakeTestRun defaults name fnOk deps rs
        = ⟨false, .depMissing d0, rs⟩ := by
      rw [makeMakeTestRun, hfind]
    have hnotall : ¬ ∀ t ∈ allDependentTests defaults deps, lookupResult rs t = true := by
      intro hcontra
      rw [hcontra d0 hmem] at hlook
      cases hlook
    refine ⟨?_, ?_, ?_, ?_, ?_⟩
    · rw [hrun]
      exact ⟨fun hfalse => absurd hfalse (by simp), fun hcontra => absurd hcontra hnotall⟩
    · intro d hd
      rw [hrun] at hd
      simp at hd
      subst hd
      exact ⟨hmem, hlook, by rw [hrun], by rw [hrun]⟩
    · rw [hrun]
      simp
    · rw [hrun]
      simp
    · intro hp2
      rw [hrun] at hp2
      simp at hp2

/-- Witness for C8: the gating at concrete inputs: default dependency
"should login" recorded as passed, no extra dependencies, a succeeding
body. -/
theorem C8_makeMakeTest_gating_witness :
    ((makeMakeTestRun (StrOrArray.str "should login") "should create a project" true
        (StrOrArray.arr []) [("should login", true)]).fnInvoked = true
      ↔ ∀ t ∈ allDependentTests (StrOrArray.str "should login") (StrOrArray.arr []),
          lookupResult [("should login", true)] t = true)
    ∧ (∀ d, (makeMakeTestRun (StrOrArray.str "should login") "should create a project" true
          (StrOrArray.arr []) [("should login", true)]).outcome = TestOutcome.depMissing d →
        d ∈ allDependentTests (StrOrArray.str "should login") (StrOrArray.arr [])
          ∧ lookupResult [("should login", true)] d = false
          ∧ (makeMakeTestRun (StrOrArray.str "should login") "should create a project" true
              (StrOrArray.arr []) [("should login", true)]).fnInvoked = false
          ∧ (makeMakeTestRun (StrOrArray.str "should login") "should create a project" true
              (StrOrArray.arr []) [("should login", true)]).results = [("should login", true)])
    ∧ ((makeMakeTestRun (StrOrArray.str "should login") "should create a project" true
          (StrOrArray.arr []) [("should login", true)]).outcome = TestOutcome.passed
      ↔ (makeMakeTestRun (StrOrArray.str "should login") "should create a project" true
          (StrOrArray.arr []) [("should login", true)]).fnInvoked = true ∧ true = true)
    ∧ ((makeMakeTestRun (StrOrArray.str "should login") "should create a project" true
          (StrOrArray.arr []) [("should login", true)]).results
        = if (makeMakeTestRun (StrOrArray.str "should login") "should create a project" true
              (StrOrArray.arr []) [("should login", true)]).outcome = TestOutcome.passed
            then ("should create a project", true) :: [("should login", true)]
            else [("should login", true)])
    ∧ ((makeMakeTestRun (StrOrArray.str "should login") "should create a project" true
          (StrOrArray.arr []) [("should login", true)]).outcome = TestOutcome.passed →
        lookupResult (makeMakeTestRun (StrOrArray.str "should login")
            "should create a project" true (StrOrArray.arr [])
            [("should login", true)]).results "should create a project" = true) :=
  C8_makeMakeTest_gating (StrOrArray.str "should login") (StrOrArray.arr [])
    "should create a project" true [("should login", true)]

/-- C9: `clearAndType` overwrites rather than appends: the resulting input
state is independent of the prior state and its value is exactly the
typed text, while `appendText` preserves the prior value as a prefix. -/
theorem C9_clearAndType_overwrites (st1 st2 st : InputState) (text : String) :
    runActions st1 (clearAndType text) = runActions st2 (clearAndType text)
    ∧ (runActions st1 (clearAndType text)).value = text.toList
    ∧ (runActions st (appendText text)).value = st.value ++ text.toList := by
  refine ⟨rfl, ?_, ?_⟩ <;> simp [runActions, clearAndType, appendText, applyAction]

/-- C10: `clearAndTypeNumber` equals `clearAndType` when `parseFloat(text)`
is not negative; when it is negative the helper additionally presses
ArrowLeft once per character of `text` and types one extra minus sign at
that caret position (so the minus lands in front of the typed text). -/
theorem C10_clearAndTypeNumber_compensation (st : InputState) (text : String) :
    (parseFloatNeg text = false → clearAndTypeNumber text = clearAndType text)
    ∧ (parseFloatNeg text = true →
        clearAndTypeNumber text
          = clearAndType text
            ++ (List.replicate text.length KeyAction.pressArrowLeft
                ++ [KeyAction.typeText "-"])
        ∧ (runActions st (clearAndTypeNumber text)).value = '-' :: text.toList) := by
  constructor
  · intro h
    simp [clearAndTypeNumber, h]
  · intro h
    have hdef : clearAndTypeNumber text
        = clearAndType text
          ++ (List.replicate text.length KeyAction.pressArrowLeft
              ++ [KeyAction.typeText "-"]) := by
      simp [clearAndTypeNumber, h]
    refine ⟨hdef, ?_⟩
    have h1 : runActions st (clearAndType text) = ⟨text.toList, text.length⟩ := by
      simp [runActions, clearAndType, applyAction]
    rw [hdef, runActions_append, h1, runActions_append, runActions_replicate_arrowLeft,
      Nat.sub_self]
    simp [runActions, applyAction]

/-- Witness for C10: the longitude entries of the e2e `createStop` calls: a
non-negative latitude types plainly, the negative longitude triggers the
ArrowLeft compensation and lands the minus in front. -/
theorem C10_clearAndTypeNumber_compensation_witness :
    parseFloatNeg "37.04671717" = false
    ∧ clearAndTypeNumber "37.04671717" = clearAndType "37.04671717"
    ∧ parseFloatNeg "-122.07529759" = true
    ∧ clearAndTypeNumber "-122.07529759"
        = clearAndType "-122.07529759"
          ++ (List.replicate "-122.07529759".length KeyAction.pressArrowLeft
              ++ [KeyAction.typeText "-"])
    ∧ (runActions ⟨[], 0⟩ (clearAndTypeNumber "-122.07529759")).value
        = '-' :: "-122.07529759".toList :=
  ⟨rfl,
   (C10_clearAndTypeNumber_compensation ⟨[], 0⟩ "37.04671717").1 rfl,
   rfl,
   ((C10_clearAndTypeNumber_compensation ⟨[], 0⟩ "-122.07529759").2 rfl).1,
   ((C10_clearAndTypeNumber_compensation ⟨[], 0⟩ "-122.07529759").2 rfl).2⟩

end Datatools
